import Mathlib

/-!
Verification development for the WebRTC paced sender
(src/trunk/webrtc/modules/pacing/paced_sender.cc).

The C++ pacer is embedded shallowly:

* C++ `int` / `int64_t` arithmetic is modelled by `Int`; the claims under
  study never approach the overflow range, and C++ signed overflow is
  undefined behaviour anyway.  C++ integer division (`/`, truncation
  toward zero) is modelled by `Int.tdiv`.
* `std::list<Packet>` is a `List Packet`; the auxiliary
  `std::set<uint16_t>` of `PacketList` is carried explicitly as a
  `List Nat` used only through membership, insertion and erasure.
* The clock (`TickTime::Now()`) becomes an explicit `now : Int`
  parameter.  A single call to a member function is modelled as
  instantaneous: every `TickTime::Now()` read inside one call returns the
  same `now`.
* The two sender callbacks are observable outputs: a `Process` run
  returns the list of packets handed to `TimeToSendPacket` and the
  padding amount requested from `TimeToSendPadding` (if any); the bytes
  the padding callback reports back are supplied by a response function
  `padResponse`.
* `TRACE_EVENT` calls are no-ops and are not modelled; the
  `last_packet` out-parameter of `GetNextPacketFromList` feeds only a
  trace event and is likewise dropped.
-/

namespace PacedSpec

/-- Time limit in milliseconds between packet bursts. -/
def kMinPacketLimitMs : Int := 5

/-- Upper cap on process interval. -/
def kMaxIntervalTimeMs : Int := 30

/-- Max time the first queued packet may wait without any send. -/
def kMaxQueueTimeWithoutSendingMs : Int := 30

/-- Max padding bytes per second. -/
def kMaxPaddingKbps : Int := 800

/-- Packet descriptor (struct `paced_sender::Packet`). -/
structure Packet where
  ssrc : Nat
  sequence_number : Nat
  capture_time_ms : Int
  bytes : Int
deriving DecidableEq, Repr

/-- Priority levels of `PacedSender::Priority`. -/
inductive Priority where
  | kHighPriority
  | kNormalPriority
  | kLowPriority
deriving DecidableEq, Repr

/-- `paced_sender::PacketList`: an STL-list style class which prevents
duplicate sequence numbers, the `std::set<uint16_t>` carried as a list
used as a set. -/
structure PacketList where
  packet_list : List Packet
  sequence_number_set : List Nat
deriving DecidableEq, Repr

namespace PacketList

/-- `PacketList::empty`. -/
def isEmpty (l : PacketList) : Bool := l.packet_list.isEmpty

/-- `PacketList::pop_front`: drop the front packet and erase its sequence
number from the auxiliary set.  The C++ callers only invoke it on a
non-empty list; on the (unreachable) empty list the model is the
identity. -/
def pop_front (l : PacketList) : PacketList :=
  match l.packet_list with
  | [] => l
  | packet :: rest =>
      ⟨rest, l.sequence_number_set.erase packet.sequence_number⟩

/-- `PacketList::push_back`: append unless the sequence number is already
present (duplicate suppression). -/
def push_back (l : PacketList) (packet : Packet) : PacketList :=
  if packet.sequence_number ∈ l.sequence_number_set then l
  else ⟨l.packet_list ++ [packet],
        packet.sequence_number :: l.sequence_number_set⟩

/-- Well-formedness of a `PacketList`: the queued sequence numbers are
pairwise distinct and the auxiliary set holds exactly them.  This is the
invariant the C++ class maintains. -/
def WF (l : PacketList) : Prop :=
  (l.packet_list.map Packet.sequence_number).Nodup ∧
  l.sequence_number_set ⊆ l.packet_list.map Packet.sequence_number ∧
  l.packet_list.map Packet.sequence_number ⊆ l.sequence_number_set

instance (l : PacketList) : Decidable l.WF := by
  unfold WF; infer_instance

end PacketList

/-- `paced_sender::IntervalBudget`: a token bucket measured in bytes. -/
structure IntervalBudget where
  target_rate_kbps : Int
  bytes_remaining : Int
deriving DecidableEq, Repr

namespace IntervalBudget

/-- `IntervalBudget::IncreaseBudget`. -/
def IncreaseBudget (b : IntervalBudget) (delta_time_ms : Int) : IntervalBudget :=
  let bytes := Int.tdiv (b.target_rate_kbps * delta_time_ms) 8
  if b.bytes_remaining < 0 then
    { b with bytes_remaining := b.bytes_remaining + bytes }
  else
    { b with bytes_remaining := bytes }

/-- `IntervalBudget::UseBudget`. -/
def UseBudget (b : IntervalBudget) (bytes : Int) : IntervalBudget :=
  { b with
    bytes_remaining :=
      max (b.bytes_remaining - bytes) (Int.tdiv (-100 * b.target_rate_kbps) 8) }

end IntervalBudget

/-- Mutable state of a `PacedSender` (callback and `pace_multiplier_`
excluded: the former is modelled as observable output, the latter only
scales rates fed in from outside the claims). -/
structure PacedSenderState where
  enabled : Bool
  paused : Bool
  media_budget : IntervalBudget
  padding_budget : IntervalBudget
  pad_up_to_bitrate_budget : IntervalBudget
  time_last_update : Int
  time_last_send : Int
  capture_time_ms_last_queued : Int
  capture_time_ms_last_sent : Int
  high_priority_packets : PacketList
  normal_priority_packets : PacketList
  low_priority_packets : PacketList
deriving DecidableEq, Repr

namespace PacedSenderState

/-- The band belonging to a priority (the `switch` of
`PacedSender::SendPacket`, non-paused arm). -/
def bandOf (s : PacedSenderState) : Priority → PacketList
  | Priority.kHighPriority => s.high_priority_packets
  | Priority.kNormalPriority => s.normal_priority_packets
  | Priority.kLowPriority => s.low_priority_packets

/-- Replace the band belonging to a priority. -/
def setBand (s : PacedSenderState) : Priority → PacketList → PacedSenderState
  | Priority.kHighPriority, l => { s with high_priority_packets := l }
  | Priority.kNormalPriority, l => { s with normal_priority_packets := l }
  | Priority.kLowPriority, l => { s with low_priority_packets := l }

/-- `PacedSender::UpdateMediaBytesSent`. -/
def UpdateMediaBytesSent (s : PacedSenderState) (now num_bytes : Int) :
    PacedSenderState :=
  { s with
    time_last_send := now
    media_budget := s.media_budget.UseBudget num_bytes
    pad_up_to_bitrate_budget := s.pad_up_to_bitrate_budget.UseBudget num_bytes }

/-- `PacedSender::UpdateBytesPerInterval`. -/
def UpdateBytesPerInterval (s : PacedSenderState) (delta_time_ms : Int) :
    PacedSenderState :=
  { s with
    media_budget := s.media_budget.IncreaseBudget delta_time_ms
    padding_budget := s.padding_budget.IncreaseBudget delta_time_ms
    pad_up_to_bitrate_budget :=
      s.pad_up_to_bitrate_budget.IncreaseBudget delta_time_ms }

/-- `PacedSender::SendPacket` (the `enqueue` of the spec): returns the
C++ boolean result together with the successor state. -/
def SendPacket (s : PacedSenderState) (now : Int) (priority : Priority)
    (ssrc sequence_number : Nat) (capture_time_ms bytes : Int) :
    Bool × PacedSenderState :=
  if s.enabled = false then
    (true, s.UpdateMediaBytesSent now bytes)
  else
    let capture_time_ms := if capture_time_ms < 0 then now else capture_time_ms
    if s.paused then
      match priority with
      | Priority.kHighPriority =>
          (false,
           { s with
             high_priority_packets :=
               s.high_priority_packets.push_back
                 ⟨ssrc, sequence_number, capture_time_ms, bytes⟩ })
      | Priority.kNormalPriority =>
          -- the C++ switch falls through from the normal arm into the low
          -- arm: the watermark is updated and the packet goes to the
          -- normal band.
          let s1 :=
            if s.capture_time_ms_last_queued < capture_time_ms then
              { s with capture_time_ms_last_queued := capture_time_ms }
            else s
          (false,
           { s1 with
             normal_priority_packets :=
               s1.normal_priority_packets.push_back
                 ⟨ssrc, sequence_number, capture_time_ms, bytes⟩ })
      | Priority.kLowPriority =>
          -- low-priority packets are queued in the normal band while
          -- paused, to avoid starvation.
          (false,
           { s with
             normal_priority_packets :=
               s.normal_priority_packets.push_back
                 ⟨ssrc, sequence_number, capture_time_ms, bytes⟩ })
    else
      let packet_list := s.bandOf priority
      if packet_list.packet_list = [] ∧ 0 < s.media_budget.bytes_remaining then
        (true, s.UpdateMediaBytesSent now bytes)
      else
        (false, s.setBand priority
            (packet_list.push_back ⟨ssrc, sequence_number, capture_time_ms, bytes⟩))

/-- `PacedSender::QueueInMs`. -/
def QueueInMs (s : PacedSenderState) (now_ms : Int) : Int :=
  let oldest0 := now_ms
  let oldest1 :=
    match s.high_priority_packets.packet_list.head? with
    | some packet => min oldest0 packet.capture_time_ms
    | none => oldest0
  let oldest2 :=
    match s.normal_priority_packets.packet_list.head? with
    | some packet => min oldest1 packet.capture_time_ms
    | none => oldest1
  let oldest3 :=
    match s.low_priority_packets.packet_list.head? with
    | some packet => min oldest2 packet.capture_time_ms
    | none => oldest2
  now_ms - oldest3

/-- `PacedSender::GetNextPacketFromList`: read the front packet of the
given band, account its bytes, pop it.  Callers guarantee the band is
non-empty; the empty case is unreachable and returns no packet. -/
def GetNextPacketFromList (s : PacedSenderState) (now : Int)
    (priority : Priority) : Option (Packet × Priority) × PacedSenderState :=
  match (s.bandOf priority).packet_list.head? with
  | none => (none, s)
  | some packet =>
      let s1 := s.UpdateMediaBytesSent now packet.bytes
      (some (packet, priority), s1.setBand priority ((s1.bandOf priority).pop_front))

/-- `PacedSender::GetNextPacket` (the `select_next_packet` of the
spec). -/
def GetNextPacket (s : PacedSenderState) (now : Int) :
    Option (Packet × Priority) × PacedSenderState :=
  if s.media_budget.bytes_remaining ≤ 0 then
    -- all bytes consumed for this interval; check for starvation.
    if kMaxQueueTimeWithoutSendingMs < now - s.time_last_send then
      if s.high_priority_packets.packet_list ≠ [] then
        s.GetNextPacketFromList now Priority.kHighPriority
      else if s.normal_priority_packets.packet_list ≠ [] then
        s.GetNextPacketFromList now Priority.kNormalPriority
      else (none, s)
    else (none, s)
  else
    if s.high_priority_packets.packet_list ≠ [] then
      s.GetNextPacketFromList now Priority.kHighPriority
    else if s.normal_priority_packets.packet_list ≠ [] then
      s.GetNextPacketFromList now Priority.kNormalPriority
    else if s.low_priority_packets.packet_list ≠ [] then
      s.GetNextPacketFromList now Priority.kLowPriority
    else (none, s)

/-- Total number of queued packets, the variant of the drain loop. -/
def totalQueueSize (s : PacedSenderState) : Nat :=
  s.high_priority_packets.packet_list.length +
  s.normal_priority_packets.packet_list.length +
  s.low_priority_packets.packet_list.length

end PacedSenderState

/-- The `while (GetNextPacket(...))` loop of `PacedSender::Process`,
including the `capture_time_ms_last_sent_` watermark update performed in
the loop body.  The loop pops one packet per iteration, so running it
with fuel `totalQueueSize` reaches the loop's exit condition
(`drainLoop_complete` below); `Process` instantiates it that way. -/
def drainLoop : Nat → PacedSenderState → Int →
    PacedSenderState × List (Packet × Priority)
  | 0, s, _ => (s, [])
  | fuel + 1, s, now =>
      match s.GetNextPacket now with
      | (none, s1) => (s1, [])
      | (some (packet, priority), s1) =>
          let s2 :=
            if priority = Priority.kNormalPriority ∧
                s1.capture_time_ms_last_sent < packet.capture_time_ms then
              { s1 with capture_time_ms_last_sent := packet.capture_time_ms }
            else s1
          let rest := drainLoop fuel s2 now
          (rest.1, (packet, priority) :: rest.2)

/-- Observable outcome of one `PacedSender::Process` call. -/
structure ProcessResult where
  state : PacedSenderState
  sent : List (Packet × Priority)
  padding_requested : Option Int
deriving DecidableEq, Repr

namespace PacedSenderState

/-- `PacedSender::Process`: one tick.  `padResponse` models the byte
count `TimeToSendPadding` reports back for a given request. -/
def Process (s : PacedSenderState) (now : Int) (padResponse : Int → Int) :
    ProcessResult :=
  let elapsed_time_ms := now - s.time_last_update
  let s0 := { s with time_last_update := now }
  if s0.paused = false ∧ 0 < elapsed_time_ms then
    let delta_time_ms := min kMaxIntervalTimeMs elapsed_time_ms
    let s1 := s0.UpdateBytesPerInterval delta_time_ms
    let d := drainLoop s1.totalQueueSize s1 now
    let s2 := d.1
    if s2.high_priority_packets.packet_list = [] ∧
        s2.normal_priority_packets.packet_list = [] ∧
        s2.low_priority_packets.packet_list = [] ∧
        0 < s2.padding_budget.bytes_remaining ∧
        0 < s2.pad_up_to_bitrate_budget.bytes_remaining then
      let padding_needed := min s2.padding_budget.bytes_remaining
          s2.pad_up_to_bitrate_budget.bytes_remaining
      let bytes_sent := padResponse padding_needed
      { state :=
          { s2 with
            media_budget := s2.media_budget.UseBudget bytes_sent
            padding_budget := s2.padding_budget.UseBudget bytes_sent
            pad_up_to_bitrate_budget :=
              s2.pad_up_to_bitrate_budget.UseBudget bytes_sent }
        sent := d.2
        padding_requested := some padding_needed }
    else
      { state := s2, sent := d.2, padding_requested := none }
  else
    { state := s0, sent := [], padding_requested := none }

/-- Capture times of the heads of the non-empty bands, in band order. -/
def headCaptures (s : PacedSenderState) : List Int :=
  (s.high_priority_packets.packet_list.head?.map Packet.capture_time_ms).toList ++
  (s.normal_priority_packets.packet_list.head?.map Packet.capture_time_ms).toList ++
  (s.low_priority_packets.packet_list.head?.map Packet.capture_time_ms).toList

/-- The band a queued (result `false`) packet of a given priority ends up
in: while paused, low priority is re-routed to the normal band. -/
def queuedBand (s : PacedSenderState) (priority : Priority) : Priority :=
  if s.paused then
    match priority with
    | Priority.kHighPriority => Priority.kHighPriority
    | _ => Priority.kNormalPriority
  else priority

/-- The pacer state at the start of the drain loop of a `Process` call at
time `now`: `time_last_update` advanced and all budgets refilled by the
clamped elapsed time.  Definitionally equal to the state `Process` drains
from when it is not paused and time has elapsed. -/
def preDrainState (s : PacedSenderState) (now : Int) : PacedSenderState :=
  PacedSenderState.UpdateBytesPerInterval { s with time_last_update := now }
    (min kMaxIntervalTimeMs (now - s.time_last_update))

/-- The pacer state right after the drain loop of a `Process` call. -/
def postDrainState (s : PacedSenderState) (now : Int) : PacedSenderState :=
  (drainLoop (s.preDrainState now).totalQueueSize (s.preDrainState now) now).1

end PacedSenderState

/-- An enabled, un-paused pacer with empty bands, used as the base of the
concrete states below. -/
def exBase : PacedSenderState where
  enabled := true
  paused := false
  media_budget := ⟨600, 500⟩
  padding_budget := ⟨800, 0⟩
  pad_up_to_bitrate_budget := ⟨0, 0⟩
  time_last_update := 0
  time_last_send := 0
  capture_time_ms_last_queued := 0
  capture_time_ms_last_sent := 0
  high_priority_packets := ⟨[], []⟩
  normal_priority_packets := ⟨[], []⟩
  low_priority_packets := ⟨[], []⟩

/-- A disabled pacer that still holds a queued packet (reachable by
enabling, enqueueing, then disabling). -/
def exDisabledQueued : PacedSenderState :=
  { exBase with
    enabled := false
    normal_priority_packets := ⟨[⟨1, 7, 3, 100⟩], [7]⟩ }

/-- A disabled pacer with empty bands and unconfigured pad-up-to rate. -/
def exDisabledEmpty : PacedSenderState :=
  { exBase with enabled := false }

/-- An exhausted-budget pacer holding one high-priority packet, last send
long ago. -/
def exStarved : PacedSenderState :=
  { exBase with
    media_budget := ⟨100, 0⟩
    high_priority_packets := ⟨[⟨1, 2, 3, 50⟩], [2]⟩ }

/-- A pacer already holding a normal-priority packet with sequence
number 42. -/
def exDupQueued : PacedSenderState :=
  { exBase with
    normal_priority_packets := ⟨[⟨1, 42, 3, 100⟩], [42]⟩ }

/-- An idle pacer with a configured pad-up-to rate, ready to pad. -/
def exPadding : PacedSenderState :=
  { exBase with
    media_budget := ⟨600, 0⟩
    pad_up_to_bitrate_budget := ⟨160, 0⟩ }

/-- An enabled, paused pacer. -/
def exPaused : PacedSenderState :=
  { exBase with paused := true }

/-- A pacer whose only queued packet was captured in the future relative
to the clock value 100 used with it. -/
def exFutureHead : PacedSenderState :=
  { exBase with
    normal_priority_packets := ⟨[⟨1, 9, 105, 100⟩], [9]⟩ }

/-- A zero-budget pacer with two queued normal packets and a stale last
send, so the starvation override applies. -/
def exOverride : PacedSenderState :=
  { exBase with
    media_budget := ⟨0, 0⟩
    time_last_send := -40
    normal_priority_packets := ⟨[⟨1, 5, 1, 10⟩, ⟨1, 6, 2, 10⟩], [5, 6]⟩ }

/-! ## General lemmas about C++ truncating division by 8 -/

theorem tdiv_eight_nonpos (a : Int) (ha : a ≤ 0) : Int.tdiv a 8 ≤ 0 := by
  have h1 : Int.tdiv a 8 = -Int.tdiv (-a) 8 := by
    rw [← Int.neg_tdiv]; simp
  have h2 : Int.tdiv (-a) 8 = (-a) / 8 := Int.tdiv_eq_ediv (by omega) (by omega)
  omega

theorem le_eight_mul_tdiv (a : Int) (ha : a ≤ 0) : a ≤ 8 * Int.tdiv a 8 := by
  have h1 : Int.tdiv a 8 = -Int.tdiv (-a) 8 := by
    rw [← Int.neg_tdiv]; simp
  have h2 : Int.tdiv (-a) 8 = (-a) / 8 := Int.tdiv_eq_ediv (by omega) (by omega)
  omega

/-! ## Claim C2 -/

/-- Claim C2: for every budget and refill `IncreaseBudget delta_ms` with
`delta_ms ≥ 0`, if `bytes_remaining` was non-negative it is reset to
`target_rate_kbps * delta_ms / 8` (truncating division, unused tokens
discarded); if it was negative the refill is added to it. -/
theorem claim_C2 (b : IntervalBudget) (delta_ms : Int) (hd : 0 ≤ delta_ms) :
    (0 ≤ b.bytes_remaining →
      (b.IncreaseBudget delta_ms).bytes_remaining =
        Int.tdiv (b.target_rate_kbps * delta_ms) 8) ∧
    (b.bytes_remaining < 0 →
      (b.IncreaseBudget delta_ms).bytes_remaining =
        b.bytes_remaining + Int.tdiv (b.target_rate_kbps * delta_ms) 8) := by
  constructor <;> intro h0 <;>
    simp only [IntervalBudget.IncreaseBudget] <;> split <;> first | rfl | omega

/-- Claim C2 witness: refilling a fresh 800 kbps budget for 5 ms yields
500 bytes. -/
theorem claim_C2_witness :
    (IntervalBudget.IncreaseBudget ⟨800, 0⟩ 5).bytes_remaining = 500 :=
  ((claim_C2 ⟨800, 0⟩ 5 (by decide)).1 (by decide)).trans (by decide)

/-! ## Claim C7 -/

/-- Claim C7: `UseBudget n` with `n ≥ 0` sets `bytes_remaining` to
`max (bytes_remaining - n) (-100 * target_rate_kbps / 8)` (C++ truncating
division), and hence, for a non-negative target rate, the debt never falls
below 100 ms worth of the target rate. -/
theorem claim_C7 (b : IntervalBudget) (n : Int) (hn : 0 ≤ n) :
    (b.UseBudget n).bytes_remaining =
      max (b.bytes_remaining - n) (Int.tdiv (-100 * b.target_rate_kbps) 8) ∧
    (0 ≤ b.target_rate_kbps →
      -100 * b.target_rate_kbps ≤ 8 * (b.UseBudget n).bytes_remaining) := by
  constructor
  · rfl
  · intro ht
    have h1 : -100 * b.target_rate_kbps ≤ 0 := by omega
    have h2 := le_eight_mul_tdiv (-100 * b.target_rate_kbps) h1
    simp only [IntervalBudget.UseBudget]
    omega

/-- Claim C7 witness: a budget of 8 kbps with 0 bytes left, debited by 50
bytes, lands at -50, which is above the -100 debt floor. -/
theorem claim_C7_witness :
    (IntervalBudget.UseBudget ⟨8, 0⟩ 50).bytes_remaining = -50 ∧
    -100 * 8 ≤ 8 * (IntervalBudget.UseBudget ⟨8, 0⟩ 50).bytes_remaining :=
  ⟨((claim_C7 ⟨8, 0⟩ 50 (by decide)).1).trans (by decide),
   (claim_C7 ⟨8, 0⟩ 50 (by decide)).2 (by decide)⟩

/-! ## Claims C8 and C10: queue time -/

/-- Claim C10: `QueueInMs` never returns a negative value, because the
clock value itself seeds the minimum over head capture times. -/
theorem claim_C10 (s : PacedSenderState) (now : Int) : 0 ≤ s.QueueInMs now := by
  unfold PacedSenderState.QueueInMs
  cases hh : s.high_priority_packets.packet_list.head? <;>
    cases hn : s.normal_priority_packets.packet_list.head? <;>
      cases hl : s.low_priority_packets.packet_list.head? <;>
        simp only [hh, hn, hl] <;> omega

/-- Claim C8 counterexample: with one queued packet captured at 105 and
clock value 100, `QueueInMs` returns 0, not `now` minus the minimum head
capture time (which would be -5). -/
theorem claim_C8_counterexample :
    exFutureHead.QueueInMs 100 = 0 ∧
    (100 : Int) - 105 ≠ exFutureHead.QueueInMs 100 := by
  constructor <;> decide

/-- Claim C8 as amended: `QueueInMs` returns 0 when all bands are empty,
and otherwise returns `max 0 (now - m)` where `m` is the minimum head
capture time over the non-empty bands — the clock value participates in
the minimum, so the result is clamped at 0. -/
theorem claim_C8_amended (s : PacedSenderState) (now : Int) :
    (s.headCaptures = [] → s.QueueInMs now = 0) ∧
    (∀ m, s.headCaptures.min? = some m → s.QueueInMs now = max 0 (now - m)) := by
  unfold PacedSenderState.QueueInMs PacedSenderState.headCaptures
  cases hh : s.high_priority_packets.packet_list.head? <;>
    cases hn : s.normal_priority_packets.packet_list.head? <;>
      cases hl : s.low_priority_packets.packet_list.head? <;>
        refine ⟨fun h0 => ?_, fun m hm => ?_⟩ <;>
          simp_all [List.min?] <;> omega

/-- Claim C8 witness (for the amended claim): on the future-capture state
the amended formula gives `max 0 (100 - 105) = 0`. -/
theorem claim_C8_amended_witness :
    exFutureHead.QueueInMs 100 = max 0 ((100 : Int) - 105) :=
  (claim_C8_amended exFutureHead 100).2 105 (by decide)

/-! ## Lemmas about packet selection -/

theorem bandOf_update (s : PacedSenderState) (now b : Int) (p : Priority) :
    (s.UpdateMediaBytesSent now b).bandOf p = s.bandOf p := by
  cases p <;> rfl

theorem fromList_fst (s : PacedSenderState) (now : Int) (prio : Priority)
    (packet : Packet) (rest : List Packet)
    (hb : (s.bandOf prio).packet_list = packet :: rest) :
    (s.GetNextPacketFromList now prio).1 = some (packet, prio) := by
  simp [PacedSenderState.GetNextPacketFromList, hb]

theorem fromList_fst_prio (s : PacedSenderState) (now : Int) (prio : Priority)
    (packet : Packet) (prio' : Priority)
    (h : (s.GetNextPacketFromList now prio).1 = some (packet, prio')) :
    prio' = prio := by
  unfold PacedSenderState.GetNextPacketFromList at h
  cases hh : (s.bandOf prio).packet_list.head? <;> simp [hh] at h
  exact h.2.symm

/-! ## Claim C3 -/

/-- Claim C3: when `GetNextPacket` runs with an exhausted media budget,
then under the starvation override (strictly more than 30 ms since the
last send) it returns the head of the high band if non-empty, else the
head of the normal band if non-empty, and never a low-priority packet;
with 30 ms or less elapsed it returns no packet. -/
theorem claim_C3 (s : PacedSenderState) (now : Int)
    (hm : s.media_budget.bytes_remaining ≤ 0) :
    (kMaxQueueTimeWithoutSendingMs < now - s.time_last_send →
      (∀ packet rest, s.high_priority_packets.packet_list = packet :: rest →
        (s.GetNextPacket now).1 = some (packet, Priority.kHighPriority)) ∧
      (s.high_priority_packets.packet_list = [] →
        ∀ packet rest, s.normal_priority_packets.packet_list = packet :: rest →
          (s.GetNextPacket now).1 = some (packet, Priority.kNormalPriority)) ∧
      (∀ packet prio, (s.GetNextPacket now).1 = some (packet, prio) →
        prio ≠ Priority.kLowPriority)) ∧
    (now - s.time_last_send ≤ kMaxQueueTimeWithoutSendingMs →
      (s.GetNextPacket now).1 = none) := by
  constructor
  · intro h30
    refine ⟨?_, ?_, ?_⟩
    · intro packet rest hb
      unfold PacedSenderState.GetNextPacket
      rw [if_pos hm, if_pos h30, if_pos (by simp [hb])]
      exact fromList_fst s now Priority.kHighPriority packet rest hb
    · intro hhigh packet rest hb
      unfold PacedSenderState.GetNextPacket
      rw [if_pos hm, if_pos h30, if_neg (by simp [hhigh]), if_pos (by simp [hb])]
      exact fromList_fst s now Priority.kNormalPriority packet rest hb
    · intro packet prio hsome
      unfold PacedSenderState.GetNextPacket at hsome
      rw [if_pos hm, if_pos h30] at hsome
      by_cases hh : s.high_priority_packets.packet_list = []
      · rw [if_neg (by simp [hh])] at hsome
        by_cases hn2 : s.normal_priority_packets.packet_list = []
        · rw [if_neg (by simp [hn2])] at hsome
          simp at hsome
        · rw [if_pos hn2] at hsome
          have hp := fromList_fst_prio _ _ _ _ _ hsome
          rw [hp]
          decide
      · rw [if_pos hh] at hsome
        have hp := fromList_fst_prio _ _ _ _ _ hsome
        rw [hp]
        decide
  · intro h30
    unfold PacedSenderState.GetNextPacket
    rw [if_pos hm, if_neg (by omega)]

/-- Claim C3 witness: the starved state holds one high-priority packet,
40 ms after the last send the override returns it. -/
theorem claim_C3_witness :
    (exStarved.GetNextPacket 40).1 = some (⟨1, 2, 3, 50⟩, Priority.kHighPriority) :=
  ((claim_C3 exStarved 40 (by decide)).1 (by decide)).1 ⟨1, 2, 3, 50⟩ [] rfl

/-! ## Claim C1 -/

theorem getNextPacket_empty (s : PacedSenderState) (now : Int)
    (hh : s.high_priority_packets.packet_list = [])
    (hn2 : s.normal_priority_packets.packet_list = [])
    (hl2 : s.low_priority_packets.packet_list = []) :
    s.GetNextPacket now = (none, s) := by
  unfold PacedSenderState.GetNextPacket
  by_cases hm : s.media_budget.bytes_remaining ≤ 0
  · rw [if_pos hm]
    by_cases h30 : kMaxQueueTimeWithoutSendingMs < now - s.time_last_send
    · rw [if_pos h30, if_neg (by simp [hh]), if_neg (by simp [hn2])]
    · rw [if_neg h30]
  · rw [if_neg hm, if_neg (by simp [hh]), if_neg (by simp [hn2]),
      if_neg (by simp [hl2])]

theorem increase_nonpos (b : IntervalBudget) (delta : Int)
    (ht : b.target_rate_kbps ≤ 0) (hd : 0 ≤ delta) :
    (b.IncreaseBudget delta).bytes_remaining ≤ 0 := by
  have h1 : b.target_rate_kbps * delta ≤ 0 :=
    mul_nonpos_iff.mpr (Or.inr ⟨ht, hd⟩)
  have h2 := tdiv_eight_nonpos (b.target_rate_kbps * delta) h1
  unfold IntervalBudget.IncreaseBudget
  split <;> simp <;> omega

/-- Claim C1 counterexample: a disabled pacer that still holds a queued
packet (enabled, enqueued, then disabled) delivers that packet to the
sender callback on the next `Process` call, so "no execution of process
starting from a state with enabled false ever invokes a sender callback,
regardless of what packets remain queued" is false on the code:
`Process` never consults `enabled`. -/
theorem claim_C1_counterexample :
    exDisabledQueued.enabled = false ∧
    (exDisabledQueued.Process 5 (fun _ => 0)).sent =
      [(⟨1, 7, 3, 100⟩, Priority.kNormalPriority)] := by
  constructor <;> decide

/-- Claim C1 as amended: when `enabled` is false every `SendPacket`
returns true; `Process`, however, does not consult `enabled`, so it is
guaranteed to invoke no callback only when all three bands are empty and
the pad-up-to target rate is non-positive (its never-configured default
is 0). -/
theorem claim_C1_amended (s : PacedSenderState) (now : Int)
    (padResponse : Int → Int) (priority : Priority) (ssrc seq : Nat)
    (ct bytes : Int) (hen : s.enabled = false) :
    (s.SendPacket now priority ssrc seq ct bytes).1 = true ∧
    (s.high_priority_packets.packet_list = [] →
      s.normal_priority_packets.packet_list = [] →
      s.low_priority_packets.packet_list = [] →
      s.pad_up_to_bitrate_budget.target_rate_kbps ≤ 0 →
      (s.Process now padResponse).sent = [] ∧
      (s.Process now padResponse).padding_requested = none) := by
  constructor
  · unfold PacedSenderState.SendPacket
    rw [if_pos hen]
  · intro hh hn2 hl2 ht
    unfold PacedSenderState.Process
    by_cases hc : s.paused = false ∧ 0 < now - s.time_last_update
    · have hd : (0 : Int) ≤ min kMaxIntervalTimeMs (now - s.time_last_update) := by
        have := hc.2
        unfold kMaxIntervalTimeMs
        omega
      have hpad := increase_nonpos s.pad_up_to_bitrate_budget
        (min kMaxIntervalTimeMs (now - s.time_last_update)) ht hd
      simp only [PacedSenderState.UpdateBytesPerInterval,
        PacedSenderState.totalQueueSize, hh, hn2, hl2, List.length_nil,
        drainLoop]
      rw [if_pos (by simpa using hc)]
      rw [if_neg (by simp; omega)]
      exact ⟨rfl, rfl⟩
    · rw [if_neg (by simpa using hc)]
      exact ⟨rfl, rfl⟩

/-- Claim C1 witness: on a disabled pacer with empty bands and
unconfigured pad-up-to rate, `SendPacket` passes through and a `Process`
tick makes no callback. -/
theorem claim_C1_witness :
    (exDisabledEmpty.SendPacket 5 Priority.kNormalPriority 1 3 7 100).1 = true ∧
    (exDisabledEmpty.Process 5 (fun x => x)).sent = [] ∧
    (exDisabledEmpty.Process 5 (fun x => x)).padding_requested = none := by
  have h := claim_C1_amended exDisabledEmpty 5 (fun x => x)
    Priority.kNormalPriority 1 3 7 100 (by decide)
  exact ⟨h.1, (h.2 rfl rfl rfl (by decide)).1, (h.2 rfl rfl rfl (by decide)).2⟩

/-! ## Claim C6 -/

/-- Claim C6: on an enabled, paused pacer every enqueue returns false; a
high-priority packet is pushed onto the high band, while normal- and
low-priority packets are pushed onto the normal band (low is re-routed),
and `Process` performs no drain: no packet leaves any queue and no
callback is invoked. -/
theorem claim_C6 (s : PacedSenderState) (now : Int) (padResponse : Int → Int)
    (ssrc seq : Nat) (ct bytes : Int)
    (hen : s.enabled = true) (hp : s.paused = true) :
    (∀ priority, (s.SendPacket now priority ssrc seq ct bytes).1 = false) ∧
    ((s.SendPacket now Priority.kHighPriority ssrc seq ct bytes).2.high_priority_packets =
       s.high_priority_packets.push_back ⟨ssrc, seq, if ct < 0 then now else ct, bytes⟩ ∧
     (s.SendPacket now Priority.kHighPriority ssrc seq ct bytes).2.normal_priority_packets =
       s.normal_priority_packets ∧
     (s.SendPacket now Priority.kHighPriority ssrc seq ct bytes).2.low_priority_packets =
       s.low_priority_packets) ∧
    ((s.SendPacket now Priority.kNormalPriority ssrc seq ct bytes).2.normal_priority_packets =
       s.normal_priority_packets.push_back ⟨ssrc, seq, if ct < 0 then now else ct, bytes⟩ ∧
     (s.SendPacket now Priority.kNormalPriority ssrc seq ct bytes).2.high_priority_packets =
       s.high_priority_packets ∧
     (s.SendPacket now Priority.kNormalPriority ssrc seq ct bytes).2.low_priority_packets =
       s.low_priority_packets) ∧
    ((s.SendPacket now Priority.kLowPriority ssrc seq ct bytes).2.normal_priority_packets =
       s.normal_priority_packets.push_back ⟨ssrc, seq, if ct < 0 then now else ct, bytes⟩ ∧
     (s.SendPacket now Priority.kLowPriority ssrc seq ct bytes).2.high_priority_packets =
       s.high_priority_packets ∧
     (s.SendPacket now Priority.kLowPriority ssrc seq ct bytes).2.low_priority_packets =
       s.low_priority_packets) ∧
    ((s.Process now padResponse).sent = [] ∧
     (s.Process now padResponse).padding_requested = none ∧
     (s.Process now padResponse).state.high_priority_packets = s.high_priority_packets ∧
     (s.Process now padResponse).state.normal_priority_packets = s.normal_priority_packets ∧
     (s.Process now padResponse).state.low_priority_packets = s.low_priority_packets) := by
  refine ⟨?_, ?_, ?_, ?_, ?_⟩
  · intro priority
    simp only [PacedSenderState.SendPacket, hen, hp]
    cases priority <;> simp
  · simp only [PacedSenderState.SendPacket, hen, hp]
    simp
  · simp only [PacedSenderState.SendPacket, hen, hp]
    refine ⟨?_, ?_, ?_⟩ <;> simp <;> (repeat' split) <;> rfl
  · simp only [PacedSenderState.SendPacket, hen, hp]
    simp
  · simp only [PacedSenderState.Process]
    rw [if_neg (by simp [hp])]
    exact ⟨rfl, rfl, rfl, rfl, rfl⟩

/-- Claim C6 witness: on the concrete paused pacer, a low-priority
enqueue returns false and lands in the normal band; a tick drains
nothing. -/
theorem claim_C6_witness :
    (exPaused.SendPacket 5 Priority.kLowPriority 1 3 7 100).1 = false ∧
    (exPaused.SendPacket 5 Priority.kLowPriority 1 3 7 100).2.normal_priority_packets =
      exPaused.normal_priority_packets.push_back ⟨1, 3, if (7 : Int) < 0 then 5 else 7, 100⟩ ∧
    (exPaused.Process 5 (fun x => x)).sent = [] := by
  have h := claim_C6 exPaused 5 (fun x => x) 1 3 7 100 (by decide) (by decide)
  exact ⟨h.1 Priority.kLowPriority, h.2.2.2.1.1, h.2.2.2.2.1⟩

/-! ## Claim C4 -/

theorem countP_seq_eq_one (xs : List Packet) (n : Nat)
    (hnd : (xs.map Packet.sequence_number).Nodup)
    (hm : n ∈ xs.map Packet.sequence_number) :
    xs.countP (fun q => q.sequence_number == n) = 1 := by
  have h := List.count_eq_one_of_mem hnd hm
  rw [← h, List.count, List.countP_map]
  rfl

theorem pushBack_countP (l : PacketList) (packet : Packet) (hwf : l.WF) :
    ((l.push_back packet).packet_list.countP
      (fun q => q.sequence_number == packet.sequence_number)) = 1 := by
  unfold PacketList.push_back
  split
  case isTrue hmem =>
    exact countP_seq_eq_one _ _ hwf.1 (hwf.2.1 hmem)
  case isFalse hmem =>
    have hm : packet.sequence_number ∉ l.packet_list.map Packet.sequence_number :=
      fun h => hmem (hwf.2.2 h)
    have h0 : l.packet_list.countP
        (fun q => q.sequence_number == packet.sequence_number) = 0 := by
      rw [List.countP_eq_zero]
      intro q hq hq2
      have hqe : q.sequence_number = packet.sequence_number := by simpa using hq2
      exact hm (hqe ▸ List.mem_map_of_mem Packet.sequence_number hq)
    rw [List.countP_append, h0]
    simp

theorem setBand_bandOf_same (s : PacedSenderState) (p : Priority) (l : PacketList) :
    (s.setBand p l).bandOf p = l := by
  cases p <;> rfl

theorem setBand_bandOf_ne (s : PacedSenderState) (p q : Priority) (l : PacketList)
    (h : q ≠ p) : (s.setBand p l).bandOf q = s.bandOf q := by
  cases p <;> cases q <;> first | rfl | exact absurd rfl h

/-- Claim C4 counterexample: enqueueing a packet whose sequence number 42
duplicates one already queued in the normal band returns false, yet the
pacer state is completely unchanged — the packet was not accepted into
any queue, so a false return does not mean the packet will be delivered
later. -/
theorem claim_C4_counterexample :
    (exDupQueued.SendPacket 10 Priority.kNormalPriority 2 42 7 10).1 = false ∧
    (exDupQueued.SendPacket 10 Priority.kNormalPriority 2 42 7 10).2 = exDupQueued := by
  constructor <;> decide

/-- Claim C4 as amended: a true result means the packet bypassed the
queues (no band changed); a false result means the packet was offered to
its target band (low re-routes to normal while paused): it was appended
if its sequence number was new and silently dropped if a packet with that
sequence number was already queued there, so afterwards that band holds
exactly one packet with that sequence number while the other bands are
untouched. -/
theorem claim_C4_amended (s : PacedSenderState) (now : Int) (priority : Priority)
    (ssrc seq : Nat) (ct bytes : Int)
    (hwfh : s.high_priority_packets.WF)
    (hwfn : s.normal_priority_packets.WF)
    (hwfl : s.low_priority_packets.WF) :
    ((s.SendPacket now priority ssrc seq ct bytes).1 = true →
      (s.SendPacket now priority ssrc seq ct bytes).2.high_priority_packets =
        s.high_priority_packets ∧
      (s.SendPacket now priority ssrc seq ct bytes).2.normal_priority_packets =
        s.normal_priority_packets ∧
      (s.SendPacket now priority ssrc seq ct bytes).2.low_priority_packets =
        s.low_priority_packets) ∧
    ((s.SendPacket now priority ssrc seq ct bytes).1 = false →
      ((s.SendPacket now priority ssrc seq ct bytes).2.bandOf
          (s.queuedBand priority)).packet_list.countP
        (fun q => q.sequence_number == seq) = 1 ∧
      ∀ q, q ≠ s.queuedBand priority →
        (s.SendPacket now priority ssrc seq ct bytes).2.bandOf q = s.bandOf q) := by
  by_cases hen : s.enabled = false
  · constructor
    · intro _
      simp only [PacedSenderState.SendPacket, hen]
      exact ⟨rfl, rfl, rfl⟩
    · intro hfalse
      simp [PacedSenderState.SendPacket, hen] at hfalse
  · by_cases hp : s.paused = true
    · constructor
      · intro htrue
        simp [PacedSenderState.SendPacket, hen, hp] at htrue
        cases priority <;> simp at htrue
      · intro _
        cases priority
        · constructor
          · simpa [PacedSenderState.SendPacket, hen, hp,
              PacedSenderState.queuedBand, PacedSenderState.bandOf] using
              pushBack_countP s.high_priority_packets
                ⟨ssrc, seq, if ct < 0 then now else ct, bytes⟩ hwfh
          · intro q hq
            simp only [PacedSenderState.queuedBand, hp, if_true] at hq
            simp only [PacedSenderState.SendPacket, hen, hp]
            cases q <;>
              first
                | exact absurd rfl hq
                | simp [PacedSenderState.bandOf]
        · constructor
          · have hc : ∀ ctn : Int,
                ((s.normal_priority_packets.push_back
                  ⟨ssrc, seq, ctn, bytes⟩).packet_list.countP
                  (fun q => q.sequence_number == seq)) = 1 := fun ctn =>
              pushBack_countP s.normal_priority_packets ⟨ssrc, seq, ctn, bytes⟩ hwfn
            simp [PacedSenderState.SendPacket, hen, hp,
              PacedSenderState.queuedBand, PacedSenderState.bandOf]
            repeat' split
            all_goals simpa using hc _
          · intro q hq
            have hqb : s.queuedBand Priority.kNormalPriority =
                Priority.kNormalPriority := by
              simp [PacedSenderState.queuedBand, hp]
            rw [hqb] at hq
            cases q
            · simp [PacedSenderState.SendPacket, hen, hp, PacedSenderState.bandOf]
              repeat' split
              all_goals rfl
            · exact absurd rfl hq
            · simp [PacedSenderState.SendPacket, hen, hp, PacedSenderState.bandOf]
              repeat' split
              all_goals rfl
        · constructor
          · simpa [PacedSenderState.SendPacket, hen, hp,
              PacedSenderState.queuedBand, PacedSenderState.bandOf] using
              pushBack_countP s.normal_priority_packets
                ⟨ssrc, seq, if ct < 0 then now else ct, bytes⟩ hwfn
          · intro q hq
            simp only [PacedSenderState.queuedBand, hp, if_true] at hq
            simp only [PacedSenderState.SendPacket, hen, hp]
            cases q <;>
              first
                | exact absurd rfl hq
                | simp [PacedSenderState.bandOf]
    · by_cases hfast : (s.bandOf priority).packet_list = [] ∧
          0 < s.media_budget.bytes_remaining
      · constructor
        · intro _
          simp only [PacedSenderState.SendPacket, hen, hp]
          rw [if_neg (by simp [hen]), if_neg (by simp [hp]), if_pos hfast]
          exact ⟨rfl, rfl, rfl⟩
        · intro hfalse
          simp only [PacedSenderState.SendPacket] at hfalse
          rw [if_neg (by simp [hen]), if_neg (by simp [hp]), if_pos hfast] at hfalse
          simp at hfalse
      · constructor
        · intro htrue
          simp only [PacedSenderState.SendPacket] at htrue
          rw [if_neg (by simp [hen]), if_neg (by simp [hp]), if_neg hfast] at htrue
          simp at htrue
        · intro _
          have hqb : s.queuedBand priority = priority := by
            simp [PacedSenderState.queuedBand, hp]
          have hwf : (s.bandOf priority).WF := by
            cases priority <;> assumption
          constructor
          · rw [hqb]
            simp only [PacedSenderState.SendPacket]
            rw [if_neg (by simp [hen]), if_neg (by simp [hp]), if_neg hfast]
            simp only [setBand_bandOf_same]
            exact pushBack_countP (s.bandOf priority)
              ⟨ssrc, seq, if ct < 0 then now else ct, bytes⟩ hwf
          · intro q hq
            rw [hqb] at hq
            simp only [PacedSenderState.SendPacket]
            rw [if_neg (by simp [hen]), if_neg (by simp [hp]), if_neg hfast]
            exact setBand_bandOf_ne s priority q _ hq

/-- Claim C4 witness (for the amended claim): the duplicate enqueue on
the concrete state leaves exactly one packet with sequence number 42 in
the normal band. -/
theorem claim_C4_witness :
    ((exDupQueued.SendPacket 10 Priority.kNormalPriority 2 42 7 10).2.bandOf
      (exDupQueued.queuedBand Priority.kNormalPriority)).packet_list.countP
      (fun q => q.sequence_number == 42) = 1 :=
  ((claim_C4_amended exDupQueued 10 Priority.kNormalPriority 2 42 7 10
      (by decide) (by decide) (by decide)).2 (by decide)).1

/-! ## Lemmas about the drain loop -/

theorem pop_front_packet_list (l : PacketList) (p : Packet) (rest : List Packet)
    (h : l.packet_list = p :: rest) : l.pop_front.packet_list = rest := by
  obtain ⟨pl, sset⟩ := l
  simp only at h
  subst h
  rfl

theorem increase_target (b : IntervalBudget) (d : Int) :
    (b.IncreaseBudget d).target_rate_kbps = b.target_rate_kbps := by
  unfold IntervalBudget.IncreaseBudget
  split <;> rfl

theorem fromList_inv (s : PacedSenderState) (now : Int) (prio : Priority)
    (packet : Packet) (prio' : Priority) (s1 : PacedSenderState)
    (h : s.GetNextPacketFromList now prio = (some (packet, prio'), s1)) :
    s1.totalQueueSize < s.totalQueueSize ∧
    s1.time_last_send = now ∧
    s1.media_budget = s.media_budget.UseBudget packet.bytes ∧
    packet ∈ (s.bandOf prio).packet_list := by
  unfold PacedSenderState.GetNextPacketFromList at h
  cases hb : (s.bandOf prio).packet_list with
  | nil =>
    rw [hb] at h
    simp at h
  | cons p rest =>
    rw [hb] at h
    simp only [List.head?_cons, Prod.mk.injEq, Option.some.injEq] at h
    obtain ⟨⟨hp1, hp2⟩, hX⟩ := h
    subst hp1 hp2 hX
    have hpop : ((s.UpdateMediaBytesSent now p.bytes).bandOf
        prio).pop_front.packet_list = rest :=
      pop_front_packet_list _ p rest (by rw [bandOf_update]; exact hb)
    refine ⟨?_, ?_, ?_, ?_⟩
    · cases prio <;>
        simp_all [PacedSenderState.totalQueueSize, PacedSenderState.setBand,
          PacedSenderState.bandOf, PacedSenderState.UpdateMediaBytesSent]
    · cases prio <;> rfl
    · cases prio <;> rfl
    · exact List.mem_cons_self p rest

theorem getNextPacket_none_snd (s : PacedSenderState) (now : Int)
    (h : (s.GetNextPacket now).1 = none) : (s.GetNextPacket now).2 = s := by
  have key : ∀ prio, (s.bandOf prio).packet_list ≠ [] →
      (s.GetNextPacketFromList now prio).1 ≠ none := by
    intro prio hne hcon
    cases hb : (s.bandOf prio).packet_list with
    | nil => exact hne hb
    | cons p rest =>
      rw [fromList_fst s now prio p rest hb] at hcon
      simp at hcon
  unfold PacedSenderState.GetNextPacket at *
  by_cases hm : s.media_budget.bytes_remaining ≤ 0
  · rw [if_pos hm] at *
    by_cases h30 : kMaxQueueTimeWithoutSendingMs < now - s.time_last_send
    · rw [if_pos h30] at *
      by_cases hh : s.high_priority_packets.packet_list ≠ []
      · rw [if_pos hh] at *
        exact absurd h (key Priority.kHighPriority hh)
      · rw [if_neg hh] at *
        by_cases hn2 : s.normal_priority_packets.packet_list ≠ []
        · rw [if_pos hn2] at *
          exact absurd h (key Priority.kNormalPriority hn2)
        · rw [if_neg hn2] at *
    · rw [if_neg h30] at *
  · rw [if_neg hm] at *
    by_cases hh : s.high_priority_packets.packet_list ≠ []
    · rw [if_pos hh] at *
      exact absurd h (key Priority.kHighPriority hh)
    · rw [if_neg hh] at *
      by_cases hn2 : s.normal_priority_packets.packet_list ≠ []
      · rw [if_pos hn2] at *
        exact absurd h (key Priority.kNormalPriority hn2)
      · rw [if_neg hn2] at *
        by_cases hl2 : s.low_priority_packets.packet_list ≠ []
        · rw [if_pos hl2] at *
          exact absurd h (key Priority.kLowPriority hl2)
        · rw [if_neg hl2] at *

theorem getNextPacket_some_inv (s : PacedSenderState) (now : Int)
    (packet : Packet) (prio : Priority) (s1 : PacedSenderState)
    (h : s.GetNextPacket now = (some (packet, prio), s1)) :
    s1.totalQueueSize < s.totalQueueSize ∧
    s1.time_last_send = now ∧
    s1.media_budget = s.media_budget.UseBudget packet.bytes ∧
    (packet ∈ s.high_priority_packets.packet_list ∨
     packet ∈ s.normal_priority_packets.packet_list ∨
     packet ∈ s.low_priority_packets.packet_list) := by
  unfold PacedSenderState.GetNextPacket at h
  by_cases hm : s.media_budget.bytes_remaining ≤ 0
  · rw [if_pos hm] at h
    by_cases h30 : kMaxQueueTimeWithoutSendingMs < now - s.time_last_send
    · rw [if_pos h30] at h
      by_cases hh : s.high_priority_packets.packet_list ≠ []
      · rw [if_pos hh] at h
        have hi := fromList_inv s now Priority.kHighPriority packet prio s1 h
        exact ⟨hi.1, hi.2.1, hi.2.2.1, Or.inl hi.2.2.2⟩
      · rw [if_neg hh] at h
        by_cases hn2 : s.normal_priority_packets.packet_list ≠ []
        · rw [if_pos hn2] at h
          have hi := fromList_inv s now Priority.kNormalPriority packet prio s1 h
          exact ⟨hi.1, hi.2.1, hi.2.2.1, Or.inr (Or.inl hi.2.2.2)⟩
        · rw [if_neg hn2] at h
          simp at h
    · rw [if_neg h30] at h
      simp at h
  · rw [if_neg hm] at h
    by_cases hh : s.high_priority_packets.packet_list ≠ []
    · rw [if_pos hh] at h
      have hi := fromList_inv s now Priority.kHighPriority packet prio s1 h
      exact ⟨hi.1, hi.2.1, hi.2.2.1, Or.inl hi.2.2.2⟩
    · rw [if_neg hh] at h
      by_cases hn2 : s.normal_priority_packets.packet_list ≠ []
      · rw [if_pos hn2] at h
        have hi := fromList_inv s now Priority.kNormalPriority packet prio s1 h
        exact ⟨hi.1, hi.2.1, hi.2.2.1, Or.inr (Or.inl hi.2.2.2)⟩
      · rw [if_neg hn2] at h
        by_cases hl2 : s.low_priority_packets.packet_list ≠ []
        · rw [if_pos hl2] at h
          have hi := fromList_inv s now Priority.kLowPriority packet prio s1 h
          exact ⟨hi.1, hi.2.1, hi.2.2.1, Or.inr (Or.inr hi.2.2.2)⟩
        · rw [if_neg hl2] at h
          simp at h

theorem drainLoop_sent_nil (fuel : Nat) (s : PacedSenderState) (now : Int)
    (h : (s.GetNextPacket now).1 = none) :
    (drainLoop fuel s now).2 = [] := by
  cases fuel with
  | zero => rfl
  | succ n =>
    cases hg : s.GetNextPacket now with
    | mk o s1 =>
      cases o with
      | none => simp [drainLoop, hg]
      | some pp =>
        rw [hg] at h
        simp at h

theorem drainLoop_complete (fuel : Nat) (s : PacedSenderState) (now : Int)
    (hfuel : s.totalQueueSize ≤ fuel) :
    ((drainLoop fuel s now).1.GetNextPacket now).1 = none := by
  induction fuel generalizing s with
  | zero =>
    have h0 : s.totalQueueSize = 0 := Nat.le_zero.mp hfuel
    unfold PacedSenderState.totalQueueSize at h0
    have hh : s.high_priority_packets.packet_list = [] :=
      List.length_eq_zero.mp (by omega)
    have hn2 : s.normal_priority_packets.packet_list = [] :=
      List.length_eq_zero.mp (by omega)
    have hl2 : s.low_priority_packets.packet_list = [] :=
      List.length_eq_zero.mp (by omega)
    simp [drainLoop, getNextPacket_empty s now hh hn2 hl2]
  | succ n ih =>
    cases hg : s.GetNextPacket now with
    | mk o s1 =>
      cases o with
      | none =>
        have h1 : (s.GetNextPacket now).1 = none := by rw [hg]
        have h2 : s1 = s := by
          have h3 := getNextPacket_none_snd s now h1
          rw [hg] at h3
          exact h3
        subst h2
        simp [drainLoop, hg, h1]
      | some pp =>
        obtain ⟨packet, prio⟩ := pp
        have hs := getNextPacket_some_inv s now packet prio s1 hg
        simp only [drainLoop, hg]
        split <;> exact ih _ (by
          simp only [PacedSenderState.totalQueueSize] at *
          omega)

theorem drainLoop_sends_at_most_one (fuel : Nat) (s : PacedSenderState)
    (now : Int)
    (hm : s.media_budget.bytes_remaining ≤ 0)
    (ht : 0 ≤ s.media_budget.target_rate_kbps)
    (hbh : ∀ p ∈ s.high_priority_packets.packet_list, 0 ≤ p.bytes)
    (hbn : ∀ p ∈ s.normal_priority_packets.packet_list, 0 ≤ p.bytes)
    (hbl : ∀ p ∈ s.low_priority_packets.packet_list, 0 ≤ p.bytes) :
    (drainLoop fuel s now).2.length ≤ 1 := by
  cases fuel with
  | zero => simp [drainLoop]
  | succ n =>
    cases hg : s.GetNextPacket now with
    | mk o s1 =>
      cases o with
      | none => simp [drainLoop, hg]
      | some pp =>
        obtain ⟨packet, prio⟩ := pp
        have hs := getNextPacket_some_inv s now packet prio s1 hg
        have hbp : 0 ≤ packet.bytes := by
          rcases hs.2.2.2 with hmem | hmem | hmem
          · exact hbh packet hmem
          · exact hbn packet hmem
          · exact hbl packet hmem
        have hm1 : s1.media_budget.bytes_remaining ≤ 0 := by
          rw [hs.2.2.1]
          simp only [IntervalBudget.UseBudget]
          have h2 := tdiv_eight_nonpos (-100 * s.media_budget.target_rate_kbps)
            (by omega)
          omega
        have hnone : ∀ s2 : PacedSenderState,
            s2.media_budget.bytes_remaining = s1.media_budget.bytes_remaining →
            s2.time_last_send = s1.time_last_send →
            (s2.GetNextPacket now).1 = none := by
          intro s2 he1 he2
          unfold PacedSenderState.GetNextPacket
          rw [if_pos (by rw [he1]; exact hm1)]
          rw [if_neg (by
            rw [he2, hs.2.1]
            unfold kMaxQueueTimeWithoutSendingMs
            omega)]
        have hrest : (drainLoop n (if prio = Priority.kNormalPriority ∧
            s1.capture_time_ms_last_sent < packet.capture_time_ms then
              { s1 with capture_time_ms_last_sent := packet.capture_time_ms }
            else s1) now).2 = [] := by
          apply drainLoop_sent_nil
          split <;> exact hnone _ rfl rfl
        simp [drainLoop, hg, hrest]

/-! ## Claim C9 -/

/-- Claim C9: if the media budget is exhausted when the drain loop of a
`Process` call begins and every queued packet has non-negative size (and
the media target rate is non-negative, as the data model requires), then
at most one packet is handed to the send callback during that call: a
starvation-override send moves `time_last_send` to the pop time, so the
override test fails on every later iteration of that drain loop. -/
theorem claim_C9 (s : PacedSenderState) (now : Int) (padResponse : Int → Int)
    (hp : s.paused = false) (he : 0 < now - s.time_last_update)
    (hm : (s.preDrainState now).media_budget.bytes_remaining ≤ 0)
    (ht : 0 ≤ s.media_budget.target_rate_kbps)
    (hbh : ∀ p ∈ s.high_priority_packets.packet_list, 0 ≤ p.bytes)
    (hbn : ∀ p ∈ s.normal_priority_packets.packet_list, 0 ≤ p.bytes)
    (hbl : ∀ p ∈ s.low_priority_packets.packet_list, 0 ≤ p.bytes) :
    (s.Process now padResponse).sent.length ≤ 1 := by
  have ht1 : 0 ≤ (s.preDrainState now).media_budget.target_rate_kbps := by
    have h1 : (s.preDrainState now).media_budget.target_rate_kbps =
        s.media_budget.target_rate_kbps :=
      increase_target s.media_budget (min kMaxIntervalTimeMs (now - s.time_last_update))
    rw [h1]
    exact ht
  have h1 := drainLoop_sends_at_most_one (s.preDrainState now).totalQueueSize
    (s.preDrainState now) now hm ht1 hbh hbn hbl
  simp only [PacedSenderState.Process]
  rw [if_pos ⟨hp, he⟩]
  split
  · exact h1
  · exact h1

/-- Claim C9 witness: the zero-budget override state with two queued
packets emits exactly one packet in a single `Process` call. -/
theorem claim_C9_witness :
    (exOverride.Process 5 (fun x => x)).sent.length ≤ 1 :=
  claim_C9 exOverride 5 (fun x => x) (by decide) (by decide) (by decide)
    (by decide) (by decide) (by decide) (by decide)

/-! ## Claim C5 -/

/-- Claim C5: in every `Process` run that is not paused and has positive
elapsed time, padding is requested iff, after the drain loop exits (and
it has really exited: no further packet is selectable), all three bands
are empty and both the padding and pad-up-to budgets are positive; the
requested amount is the minimum of those two budgets, and the byte count
the callback reports is debited from the media, padding, and pad-up-to
budgets. -/
theorem claim_C5 (s : PacedSenderState) (now : Int) (padResponse : Int → Int)
    (hp : s.paused = false) (he : 0 < now - s.time_last_update) :
    (((s.postDrainState now).GetNextPacket now).1 = none) ∧
    ((s.Process now padResponse).padding_requested ≠ none ↔
      ((s.postDrainState now).high_priority_packets.packet_list = [] ∧
       (s.postDrainState now).normal_priority_packets.packet_list = [] ∧
       (s.postDrainState now).low_priority_packets.packet_list = [] ∧
       0 < (s.postDrainState now).padding_budget.bytes_remaining ∧
       0 < (s.postDrainState now).pad_up_to_bitrate_budget.bytes_remaining)) ∧
    (((s.postDrainState now).high_priority_packets.packet_list = [] ∧
      (s.postDrainState now).normal_priority_packets.packet_list = [] ∧
      (s.postDrainState now).low_priority_packets.packet_list = [] ∧
      0 < (s.postDrainState now).padding_budget.bytes_remaining ∧
      0 < (s.postDrainState now).pad_up_to_bitrate_budget.bytes_remaining) →
      (s.Process now padResponse).padding_requested =
        some (min (s.postDrainState now).padding_budget.bytes_remaining
          (s.postDrainState now).pad_up_to_bitrate_budget.bytes_remaining) ∧
      (s.Process now padResponse).state.media_budget =
        (s.postDrainState now).media_budget.UseBudget
          (padResponse (min (s.postDrainState now).padding_budget.bytes_remaining
            (s.postDrainState now).pad_up_to_bitrate_budget.bytes_remaining)) ∧
      (s.Process now padResponse).state.padding_budget =
        (s.postDrainState now).padding_budget.UseBudget
          (padResponse (min (s.postDrainState now).padding_budget.bytes_remaining
            (s.postDrainState now).pad_up_to_bitrate_budget.bytes_remaining)) ∧
      (s.Process now padResponse).state.pad_up_to_bitrate_budget =
        (s.postDrainState now).pad_up_to_bitrate_budget.UseBudget
          (padResponse (min (s.postDrainState now).padding_budget.bytes_remaining
            (s.postDrainState now).pad_up_to_bitrate_budget.bytes_remaining))) := by
  refine ⟨drainLoop_complete _ _ now (le_refl _), ?_, ?_⟩
  · simp only [PacedSenderState.Process]
    rw [if_pos ⟨hp, he⟩]
    split
    case isTrue hc => exact iff_of_true (by simp) hc
    case isFalse hc => exact iff_of_false (by simp) hc
  · intro hcond
    simp only [PacedSenderState.Process]
    rw [if_pos ⟨hp, he⟩]
    split
    case isTrue hc => exact ⟨rfl, rfl, rfl, rfl⟩
    case isFalse hc => exact absurd hcond hc

/-- Claim C5 witness: on the idle padding-ready state, a tick requests
`min 500 100 = 100` padding bytes. -/
theorem claim_C5_witness :
    (exPadding.Process 5 (fun x => x)).padding_requested = some 100 := by
  have h := claim_C5 exPadding 5 (fun x => x) (by decide) (by decide)
  have h2 := (h.2.2 (by decide)).1
  rw [h2]
  decide

end PacedSpec
